import Mathlib

/-
  Verification of dataset_setup/data_loader.py.

  The development shallowly embeds the module's string-repair heuristics
  (fix_json_structure), the metadata extraction (preprocess_annotator_metadata),
  the per-file dataframe pipeline of load_datasets_from_filesystem, and the
  control flow of main.  Strings are lists of characters; Python str.replace
  is modelled by pyReplace; json.loads is modelled by a JSON parser over an
  integer-numeral fragment sufficient for the data at hand; pandas cell
  operations are modelled element-wise on parsed JSON values.
-/

set_option maxHeartbeats 1000000
set_option maxRecDepth 40000

/-- Characters of a string literal, the working representation of Python str. -/
def chars (s : String) : List Char := s.data

/-- The opening curly brace character. -/
def lbrace : Char := Char.ofNat 123

/-- The closing curly brace character. -/
def rbrace : Char := Char.ofNat 125

/-- Fuel-indexed model of Python str.replace(pat, rep): scan left to right,
at each position replace the leftmost occurrence of pat and continue after it.
Callers always supply fuel larger than the length of the scanned string, so the
fuel-exhaustion branch is never reached. -/
def pyReplaceF : Nat → List Char → List Char → List Char → List Char
  | 0, s, _, _ => s
  | _ + 1, [], _, _ => []
  | f + 1, c :: cs, pat, rep =>
    if !pat.isEmpty && pat.isPrefixOf (c :: cs) then
      rep ++ pyReplaceF f ((c :: cs).drop pat.length) pat rep
    else
      c :: pyReplaceF f cs pat rep

/-- Python s.replace(pat, rep) for the nonempty patterns used by the loader. -/
def pyReplace (s pat rep : List Char) : List Char :=
  pyReplaceF (s.length + 1) s pat rep

/-- The sentinel string "TMP1" of fix_json_structure. -/
def sentTMP1 : List Char := ['T', 'M', 'P', '1']

/-- The sentinel string "TMP2" of fix_json_structure. -/
def sentTMP2 : List Char := ['T', 'M', 'P', '2']

/-- The sentinel string "TMP3" of fix_json_structure. -/
def sentTMP3 : List Char := ['T', 'M', 'P', '3']

/-- The protected contraction pattern of a possessive or contracted s. -/
def patQS : List Char := ['\'', 's']

/-- The protected contraction pattern of a contracted t. -/
def patQT : List Char := ['\'', 't']

/-- The protected pattern of a single quote before an opening parenthesis. -/
def patQP : List Char := ['\'', '(']

/-- The one-character string holding a double quote. -/
def dblq : List Char := ['"']

/-- The one-character string holding a single quote. -/
def sglq : List Char := ['\'']

/-- Tier 1 candidate string of fix_json_structure (data_loader.py lines 94-97):
metadata.replace('"', "TMP1").replace("'", '"').replace("TMP1", "'"). -/
def tier1string (metadata : List Char) : List Char :=
  pyReplace (pyReplace (pyReplace metadata dblq sentTMP1) sglq dblq) sentTMP1 sglq

/-- Protection stage of the Tier 2 candidate (data_loader.py lines 100-102):
.replace("'s", "TMP1").replace("'t", "TMP2").replace("'(", "TMP3"). -/
def protectStep (s : List Char) : List Char :=
  pyReplace (pyReplace (pyReplace s patQS sentTMP1) patQT sentTMP2) patQP sentTMP3

/-- Quote stage of the Tier 2 candidate (data_loader.py lines 103-104):
.replace('"', "'").replace("'", '"'), applied in that sequential order. -/
def swapStep (s : List Char) : List Char :=
  pyReplace (pyReplace s dblq sglq) sglq dblq

/-- Restore stage of the Tier 2 candidate (data_loader.py lines 105-107):
.replace("TMP2", "'t").replace("TMP1", "'s").replace("TMP3", "'("). -/
def restoreStep (s : List Char) : List Char :=
  pyReplace (pyReplace (pyReplace s sentTMP2 patQT) sentTMP1 patQS) sentTMP3 patQP

/-- Tier 2 candidate string of fix_json_structure (data_loader.py lines 99-108). -/
def tier2string (metadata : List Char) : List Char :=
  restoreStep (swapStep (protectStep metadata))

/-- JSON values as produced by json.loads, with numerals restricted to the
integer fragment that the annotator metadata uses. -/
inductive Json where
  | null : Json
  | bool : Bool → Json
  | num : Int → Json
  | str : List Char → Json
  | arr : List Json → Json
  | obj : List (List Char × Json) → Json

/-- Whitespace test of the JSON grammar. -/
def isJsonWs (c : Char) : Bool :=
  c = ' ' || c = '\t' || c = '\n' || c = '\r'

/-- Skip leading JSON whitespace. -/
def skipWs : List Char → List Char
  | [] => []
  | c :: r => if isJsonWs c then skipWs r else c :: r

/-- Decimal digit test. -/
def isDigitCh (c : Char) : Bool :=
  decide ('0' ≤ c) && decide (c ≤ '9')

/-- Accumulate a run of decimal digits, returning the value and the rest. -/
def parseDigits : List Char → Nat → Nat × List Char
  | [], acc => (acc, [])
  | c :: r, acc =>
    if isDigitCh c then parseDigits r (acc * 10 + (c.toNat - 48)) else (acc, c :: r)

/-- Single-character JSON string escapes accepted by json.loads; the model
leaves \uXXXX escapes unsupported (the datasets never contain them). -/
def escChar (e : Char) : Option Char :=
  if e = '"' then some '"'
  else if e = '\\' then some '\\'
  else if e = '/' then some '/'
  else if e = 'n' then some '\n'
  else if e = 't' then some '\t'
  else if e = 'r' then some '\r'
  else if e = 'b' then some (Char.ofNat 8)
  else if e = 'f' then some (Char.ofNat 12)
  else none

/-- Parse the body of a JSON string after the opening quote, returning the
decoded content and the input after the closing quote. -/
def parseStrF : Nat → List Char → Option (List Char × List Char)
  | 0, _ => none
  | _ + 1, [] => none
  | f + 1, c :: r =>
    if c = '"' then some ([], r)
    else if c = '\\' then
      match r with
      | [] => none
      | e :: r2 =>
        match escChar e with
        | some ec => (parseStrF f r2).map (fun p => (ec :: p.1, p.2))
        | none => none
    else (parseStrF f r).map (fun p => (c :: p.1, p.2))

mutual

/-- Parse one JSON value, fuel-indexed; fuel bounds the recursion depth and is
always supplied larger than the input length. -/
def parseValF : Nat → List Char → Option (Json × List Char)
  | 0, _ => none
  | f + 1, s =>
    match skipWs s with
    | [] => none
    | c :: r =>
      if c = lbrace then
        match skipWs r with
        | [] => none
        | c2 :: r2 =>
          if c2 = rbrace then some (Json.obj [], r2)
          else parseObjRestF f [] (c2 :: r2)
      else if c = '[' then
        match skipWs r with
        | [] => none
        | c2 :: r2 =>
          if c2 = ']' then some (Json.arr [], r2)
          else
            match parseValF f (c2 :: r2) with
            | some (v, rest) => parseArrRestF f [v] rest
            | none => none
      else if c = '"' then
        (parseStrF (r.length + 1) r).map (fun p => (Json.str p.1, p.2))
      else if c = '-' then
        match r with
        | [] => none
        | d :: _ =>
          if isDigitCh d then
            let q := parseDigits r 0
            some (Json.num (-(q.1 : Int)), q.2)
          else none
      else if isDigitCh c then
        let q := parseDigits (c :: r) 0
        some (Json.num (q.1 : Int), q.2)
      else if List.isPrefixOf (chars "true") (c :: r) then some (Json.bool true, (c :: r).drop 4)
      else if List.isPrefixOf (chars "false") (c :: r) then some (Json.bool false, (c :: r).drop 5)
      else if List.isPrefixOf (chars "null") (c :: r) then some (Json.null, (c :: r).drop 4)
      else none

/-- Parse the remaining elements of a JSON array after its first element. -/
def parseArrRestF : Nat → List Json → List Char → Option (Json × List Char)
  | 0, _, _ => none
  | f + 1, acc, s =>
    match skipWs s with
    | [] => none
    | c :: r =>
      if c = ']' then some (Json.arr acc, r)
      else if c = ',' then
        match parseValF f r with
        | some (v, rest) => parseArrRestF f (acc ++ [v]) rest
        | none => none
      else none

/-- Parse the members of a JSON object after the opening brace, first member
not yet consumed. -/
def parseObjRestF : Nat → List (List Char × Json) → List Char → Option (Json × List Char)
  | 0, _, _ => none
  | f + 1, acc, s =>
    match skipWs s with
    | [] => none
    | c :: r =>
      if c = '"' then
        match parseStrF (r.length + 1) r with
        | none => none
        | some (k, rest1) =>
          match skipWs rest1 with
          | [] => none
          | c2 :: rest2 =>
            if c2 = ':' then
              match parseValF f rest2 with
              | none => none
              | some (v, rest3) =>
                match skipWs rest3 with
                | [] => none
                | c3 :: rest4 =>
                  if c3 = ',' then parseObjRestF f (acc ++ [(k, v)]) rest4
                  else if c3 = rbrace then some (Json.obj (acc ++ [(k, v)]), rest4)
                  else none
            else none
      else none

end

/-- Model of json.loads: parse one value and require only whitespace after it. -/
def json_loads (s : List Char) : Option Json :=
  match parseValF (s.length + 2) s with
  | some (v, rest) => if (skipWs rest).isEmpty then some v else none
  | none => none

/-- Python exceptions that the loader can raise while handling one row. -/
inductive PErr where
  | jsonDecodeError : PErr
  | keyError : PErr
  | typeError : PErr
  | valueError : PErr
deriving DecidableEq

/-- fix_json_structure (data_loader.py lines 87-108): try the Tier 1 candidate,
on json.JSONDecodeError try the Tier 2 candidate, whose failure propagates. -/
def fix_json_structure (metadata : List Char) : Except PErr Json :=
  match json_loads (tier1string metadata) with
  | some v => Except.ok v
  | none =>
    match json_loads (tier2string metadata) with
    | some v => Except.ok v
    | none => Except.error PErr.jsonDecodeError

/-- Python dict subscript on the assoc list built by json.loads: with duplicate
keys the later binding wins, as in a Python dict literal. -/
def dictGet : List (List Char × Json) → List Char → Option Json
  | [], _ => none
  | (k0, v0) :: rest, k =>
    match dictGet rest k with
    | some w => some w
    | none => if k0 = k then some v0 else none

/-- The five-field record built by preprocess_annotator_metadata. -/
structure AnnotatorMetadata where
  metadata_steps : Json
  metadata_num_steps : Json
  metadata_time_taken : Json
  metadata_tools : Json
  metadata_num_tools : Json

/-- The metadata key "Steps". -/
def keySteps : List Char := chars "Steps"

/-- The metadata key "Number of steps". -/
def keyNumSteps : List Char := chars "Number of steps"

/-- The metadata key "How long did this take?". -/
def keyTimeTaken : List Char := chars "How long did this take?"

/-- The metadata key "Tools". -/
def keyTools : List Char := chars "Tools"

/-- The metadata key "Number of tools". -/
def keyNumTools : List Char := chars "Number of tools"

/-- preprocess_annotator_metadata (data_loader.py lines 75-84): repair the raw
string, then look up the five fixed keys; a missing key raises KeyError, and
subscripting a non-dict value raises TypeError. -/
def preprocess_annotator_metadata (metadata : List Char) : Except PErr AnnotatorMetadata :=
  match fix_json_structure metadata with
  | Except.error e => Except.error e
  | Except.ok (Json.obj kvs) =>
    match dictGet kvs keySteps, dictGet kvs keyNumSteps, dictGet kvs keyTimeTaken,
        dictGet kvs keyTools, dictGet kvs keyNumTools with
    | some v1, some v2, some v3, some v4, some v5 =>
      Except.ok ⟨v1, v2, v3, v4, v5⟩
    | _, _, _, _, _ => Except.error PErr.keyError
  | Except.ok _ => Except.error PErr.typeError

/-- Digit-run accumulator that also counts the digits consumed, so callers can
require a nonempty run. -/
def parseDigitsCnt : List Char → Nat → Nat → Nat × Nat × List Char
  | [], acc, cnt => (acc, cnt, [])
  | c :: r, acc, cnt =>
    if isDigitCh c then parseDigitsCnt r (acc * 10 + (c.toNat - 48)) (cnt + 1)
    else (acc, cnt, c :: r)

/-- A numeric scalar produced by pd.to_numeric, kept as the exact decimal
value mant / 10^scale.  The decimal numerals in the data are represented
exactly; float64 rounding of extreme magnitudes is not modelled (floating
point itself is out of scope). -/
structure DecScalar where
  mant : Int
  scale : Nat

/-- Fold a decimal exponent into the mantissa/scale representation. -/
def applyExp (m : Int) (k : Nat) (e : Int) : DecScalar :=
  if 0 ≤ e then ⟨m * 10 ^ e.toNat, k⟩
  else ⟨m, k + (-e).toNat⟩

/-- After the mantissa of a numeric string: an optional exponent part, then
optional trailing whitespace, then the end of the string. -/
def parseExpPart (m : Int) (k : Nat) : List Char → Option DecScalar
  | [] => some ⟨m, k⟩
  | c :: r =>
    if c = 'e' ∨ c = 'E' then
      match r with
      | [] => none
      | d :: r2 =>
        if d = '+' ∨ d = '-' then
          let q := parseDigitsCnt r2 0 0
          if q.2.1 = 0 then none
          else if (skipWs q.2.2).isEmpty then
            some (applyExp m k (if d = '-' then -(q.1 : Int) else (q.1 : Int)))
          else none
        else
          let q := parseDigitsCnt r 0 0
          if q.2.1 = 0 then none
          else if (skipWs q.2.2).isEmpty then some (applyExp m k (q.1 : Int))
          else none
    else if (skipWs (c :: r)).isEmpty then some ⟨m, k⟩
    else none

/-- Body of a numeric string after the optional sign: digits with an optional
fractional part, at least one digit overall, then an optional exponent. -/
def parseDecimalCore (sgn : Int) (s : List Char) : Option DecScalar :=
  let q1 := parseDigitsCnt s 0 0
  match q1.2.2 with
  | c :: r2 =>
    if c = '.' then
      let q2 := parseDigitsCnt r2 0 0
      if q1.2.1 = 0 ∧ q2.2.1 = 0 then none
      else parseExpPart (sgn * ((q1.1 * 10 ^ q2.2.1 + q2.1 : Nat) : Int)) q2.2.1 q2.2.2
    else
      if q1.2.1 = 0 then none
      else parseExpPart (sgn * (q1.1 : Int)) 0 (c :: r2)
  | [] =>
    if q1.2.1 = 0 then none else some ⟨sgn * (q1.1 : Int), 0⟩

/-- Numeric-string reading of pd.to_numeric: optional surrounding whitespace,
optional sign, then a decimal numeral with optional fraction and exponent
(so "2", "2.0", ".5", "1e2", "-2.5e-1" are numeric; "none" is not).  Special
floating values such as inf and nan are not modelled. -/
def parseDecimalString (s : List Char) : Option DecScalar :=
  match skipWs s with
  | [] => none
  | c :: r =>
    if c = '-' then parseDecimalCore (-1) r
    else if c = '+' then parseDecimalCore 1 r
    else parseDecimalCore 1 (c :: r)

/-- Element-wise model of pd.to_numeric(col, errors="coerce") on a JSON cell
value: numbers pass through, booleans are numeric in pandas, strings are read
as decimal numerals, and null or unparsable cells become the missing value.
Container cells are treated as coerced to missing as well. -/
def to_numeric_cell : Json → Option DecScalar
  | Json.num n => some ⟨n, 0⟩
  | Json.bool b => some ⟨if b then 1 else 0, 0⟩
  | Json.str s => parseDecimalString s
  | _ => none

/-- The astype("Int64") cast of the coerced column, element-wise: the missing
value stays missing, an integral scalar becomes its integer, and a
non-integral scalar makes the safe cast raise a TypeError. -/
def astypeInt64 : Option DecScalar → Except PErr (Option Int)
  | none => Except.ok none
  | some d =>
    if d.mant % (10 : Int) ^ d.scale = 0 then Except.ok (some (d.mant / (10 : Int) ^ d.scale))
    else Except.error PErr.typeError

/-- Element-wise model of the whole coercion of data_loader.py lines 58-60,
pd.to_numeric(col, errors="coerce").astype("Int64"): the error outcome models
the exception that the cast raises on a non-integral numeric cell. -/
def to_numeric_coerce (v : Json) : Except PErr (Option Int) :=
  astypeInt64 (to_numeric_cell v)

/-- Numeric-cell test: the cells that pd.to_numeric converts to a number
rather than to the missing value. -/
def isNumericCell : Json → Bool
  | Json.num _ => true
  | Json.bool _ => true
  | Json.str s => (parseDecimalString s).isSome
  | _ => false

/-- One raw CSV row under the fixed 7-column schema of load_datasets_from_filesystem. -/
structure RawRow where
  task_id : List Char
  question : List Char
  level : List Char
  answer : List Char
  file_name : List Char
  file_path : List Char
  annotator_metadata : List Char

/-- One row after json_normalize flattened the metadata record into columns
(data_loader.py lines 49-55); metadata_num_tools is not yet coerced. -/
structure FlatRow0 where
  task_id : List Char
  question : List Char
  level : List Char
  answer : List Char
  file_name : List Char
  file_path : List Char
  metadata_steps : Json
  metadata_num_steps : Json
  metadata_time_taken : Json
  metadata_tools : Json
  metadata_num_tools : Json

/-- One fully processed row, after the Int64 coercion of metadata_num_tools. -/
structure FlatRow where
  task_id : List Char
  question : List Char
  level : List Char
  answer : List Char
  file_name : List Char
  file_path : List Char
  metadata_steps : Json
  metadata_num_steps : Json
  metadata_time_taken : Json
  metadata_tools : Json
  metadata_num_tools : Option Int

/-- The flattening of one row: the annotator_metadata column is replaced by the
five metadata_-prefixed columns. -/
def flattenRow (r : RawRow) (m : AnnotatorMetadata) : FlatRow0 :=
  { task_id := r.task_id, question := r.question, level := r.level, answer := r.answer,
    file_name := r.file_name, file_path := r.file_path,
    metadata_steps := m.metadata_steps, metadata_num_steps := m.metadata_num_steps,
    metadata_time_taken := m.metadata_time_taken, metadata_tools := m.metadata_tools,
    metadata_num_tools := m.metadata_num_tools }

/-- Row-wise form of the metadata_num_tools column coercion (lines 58-60); the
cast's TypeError on a non-integral numeric cell propagates. -/
def coerce_num_tools_row (r : FlatRow0) : Except PErr FlatRow :=
  Except.map (fun k =>
    { task_id := r.task_id, question := r.question, level := r.level, answer := r.answer,
      file_name := r.file_name, file_path := r.file_path,
      metadata_steps := r.metadata_steps, metadata_num_steps := r.metadata_num_steps,
      metadata_time_taken := r.metadata_time_taken, metadata_tools := r.metadata_tools,
      metadata_num_tools := k })
    (to_numeric_coerce r.metadata_num_tools)

/-- The fixed S3 bucket prefix literal of data_loader.py line 64. -/
def bucketPrefix : List Char := chars "damg7374-a1-store/"

/-- Row-wise form of the file_path rewrite (data_loader.py lines 63-65). -/
def rewrite_file_path (r : FlatRow) : FlatRow :=
  { r with file_path := bucketPrefix ++ r.file_name }

/-- Per-file pipeline of load_datasets_from_filesystem (lines 42-65): apply
preprocess_annotator_metadata to every row's metadata (the first failure
propagates), flatten, coerce metadata_num_tools, rewrite file_path. -/
def process_rows (rows : List RawRow) : Except PErr (List FlatRow) :=
  Except.bind
    (rows.mapM (fun r =>
      Except.map (fun m => flattenRow r m) (preprocess_annotator_metadata r.annotator_metadata)))
    (fun flat =>
      Except.map (fun coerced => coerced.map rewrite_file_path)
        (flat.mapM coerce_num_tools_row))

/-- One discovered CSV file: its path and its data rows.  This models the
result of glob plus pd.read_csv with the fixed header schema, the file's own
header row already discarded (header=0 with the names list). -/
structure CsvFile where
  path : List Char
  rows : List RawRow

/-- The external inputs of the loader: the files matching the glob pattern. -/
structure Env where
  files : List CsvFile

/-- load_datasets_from_filesystem (data_loader.py lines 20-72): raise
ValueError when the glob finds no files, otherwise process every file. -/
def load_datasets_from_filesystem (env : Env) : Except PErr (List (List Char × List FlatRow)) :=
  if env.files.length = 0 then Except.error PErr.valueError
  else env.files.mapM (fun f => Except.map (fun out => (f.path, out)) (process_rows f.rows))

/-- The externally visible actions of main, in program order. -/
inductive Event where
  | get_postgres_conn_string : Event
  | create_engine : Event
  | create_tables : Event
  | db_connect : Event
  | to_sql : List Char → Event
deriving DecidableEq

/-- Character-level exchange of the two quote kinds, the transformation that a
correct quote swap would perform on each character. -/
def swapQuote (c : Char) : Char :=
  if c = '"' then '\'' else if c = '\'' then '"' else c

/-- Net effect on one character of Tier 2's two sequential quote replaces:
first every double quote becomes a single quote, then every single quote
(including the ones just produced) becomes a double quote. -/
def mergeQuotes (c : Char) : Char :=
  if c = '"' ∨ c = '\'' then '"' else c

/-- Intermediate string of Tier 1 after its first two replaces: double quotes
became TMP1 blocks and single quotes became double quotes. -/
def enc1d : List Char → List Char
  | [] => []
  | c :: r =>
    if c = '"' then sentTMP1 ++ enc1d r
    else if c = '\'' then '"' :: enc1d r
    else c :: enc1d r

/-- Intermediate string of Tier 2 after the protection stage on inputs whose
single quotes all start a protected pattern: each protected pattern became its
sentinel block and everything else is unchanged. -/
def enc2 : List Char → List Char
  | [] => []
  | [c] => [c]
  | c :: d :: r =>
    if c = '\'' ∧ d = 's' then sentTMP1 ++ enc2 r
    else if c = '\'' ∧ d = 't' then sentTMP2 ++ enc2 r
    else if c = '\'' ∧ d = '(' then sentTMP3 ++ enc2 r
    else c :: enc2 (d :: r)

/-- Every single quote of the string is immediately followed by s, t or (,
so that the protection stage captures every single quote. -/
def quotesProtected : List Char → Bool
  | [] => true
  | [c] => if c = '\'' then false else true
  | c :: d :: r =>
    if c = '\'' then
      if d = 's' ∨ d = 't' ∨ d = '(' then quotesProtected (d :: r) else false
    else quotesProtected (d :: r)

/-- The string contains none of the three sentinel substrings. -/
def noTMP (s : List Char) : Prop :=
  ¬ sentTMP1 <:+: s ∧ ¬ sentTMP2 <:+: s ∧ ¬ sentTMP3 <:+: s

/-- The single-quoted metadata string of the spec's first scenario. -/
def scenario1Input : List Char :=
  chars "\x7b'Steps': ['Open file', 'Read it'], 'Number of steps': 2, 'How long did this take?': \"5 minutes\", 'Tools': [], 'Number of tools': 0\x7d"

/-- The double-quoted metadata string of the spec's second scenario, with an
apostrophe contraction inside a value. -/
def scenario2Input : List Char :=
  chars "\x7b\"Steps\": [\"Ask the user what's needed\"], \"Number of steps\": 1, \"How long did this take?\": \"1 minute\", \"Tools\": [], \"Number of tools\": \"none\"\x7d"

/-- A well-formed double-quoted metadata string containing the literal sentinel
text TMP1 inside a value. -/
def sentinelCollisionInput : List Char :=
  chars "\x7b\"k\": \"TMP1\"\x7d"

/-- A well-formed double-quoted metadata string whose only single quote starts
the contraction pattern 's. -/
def contractionInput : List Char :=
  chars "\x7b\"a\": \"it's fine\"\x7d"

/-- A single-quoted metadata string carrying all five annotator keys, used to
exercise the success path of the extraction. -/
def fiveKeyInput : List Char :=
  chars "\x7b'Steps': [], 'Number of steps': 2, 'How long did this take?': '5m', 'Tools': [], 'Number of tools': 0\x7d"

/-- A single-quoted metadata string missing the Tools key. -/
def fourKeyInput : List Char :=
  chars "\x7b'Steps': [], 'Number of steps': 2, 'How long did this take?': '5m', 'Number of tools': 0\x7d"

/-- A sample raw CSV row whose attachment is report.pdf. -/
def sampleRawRow : RawRow :=
  ⟨chars "t1", chars "q", chars "1", chars "a", chars "report.pdf", chars "old/path",
   fiveKeyInput⟩

/-- The processed form of sampleRawRow. -/
def sampleFlatRow : FlatRow :=
  ⟨chars "t1", chars "q", chars "1", chars "a", chars "report.pdf",
   chars "damg7374-a1-store/report.pdf", Json.arr [], Json.num 2,
   Json.str (chars "5m"), Json.arr [], some 0⟩

namespace DataLoader

/-- main (data_loader.py lines 121-145), namespaced to keep the source's name
while avoiding Lean's reserved top-level main: load the datasets first; only
on success obtain the connection string, create the engine and the tables,
open the connection and append every dataframe.  The result is the trace of
external actions together with the propagated exception, if any. -/
def main (env : Env) : List Event × Option PErr :=
  match load_datasets_from_filesystem env with
  | Except.error e => ([], some e)
  | Except.ok dfs =>
    ([Event.get_postgres_conn_string, Event.create_engine, Event.create_tables,
      Event.db_connect] ++ dfs.map (fun d => Event.to_sql d.1), none)

end DataLoader

/-- Fuel irrelevance of the str.replace model: any fuel above the scanned
length computes the same result. -/
theorem pyReplaceF_fuel : ∀ (f g : Nat) (s pat rep : List Char),
    s.length < f → s.length < g → pyReplaceF f s pat rep = pyReplaceF g s pat rep := by
  intro f
  induction f with
  | zero => intro g s pat rep hf; exact absurd hf (by omega)
  | succ f ih =>
    intro g s pat rep hf hg
    match g, s with
    | 0, s => exact absurd hg (by omega)
    | g + 1, [] => rfl
    | g + 1, c :: cs =>
      simp only [pyReplaceF]
      by_cases hcond : (!pat.isEmpty && pat.isPrefixOf (c :: cs)) = true
      · rw [if_pos hcond, if_pos hcond]
        have hpat : 1 ≤ pat.length := by
          cases pat with
          | nil => simp [List.isEmpty] at hcond
          | cons p ps => simp
        have hlen : ((c :: cs).drop pat.length).length < f := by
          simp only [List.length_drop, List.length_cons] at *
          omega
        have hleng : ((c :: cs).drop pat.length).length < g := by
          simp only [List.length_drop, List.length_cons] at *
          omega
        rw [ih g _ pat rep hlen hleng]
      · rw [if_neg hcond, if_neg hcond]
        have hlen : cs.length < f := by simp only [List.length_cons] at hf; omega
        have hleng : cs.length < g := by simp only [List.length_cons] at hg; omega
        rw [ih g cs pat rep hlen hleng]

/-- str.replace on the empty string. -/
theorem pyReplace_nil (pat rep : List Char) : pyReplace [] pat rep = [] := rfl

/-- One scanning step of str.replace when the pattern does not match here. -/
theorem pyReplace_cons_pass (rep : List Char) {pat : List Char} {c : Char} {cs : List Char}
    (h : pat.isPrefixOf (c :: cs) = false) :
    pyReplace (c :: cs) pat rep = c :: pyReplace cs pat rep := by
  simp only [pyReplace, List.length_cons, pyReplaceF, h, Bool.and_false, if_neg,
    Bool.false_eq_true, not_false_iff]

/-- One scanning step of str.replace when the pattern matches here. -/
theorem pyReplace_cons_match (rep : List Char) {pat : List Char} {c : Char} {cs : List Char}
    (hne : pat ≠ []) (h : pat.isPrefixOf (c :: cs) = true) :
    pyReplace (c :: cs) pat rep = rep ++ pyReplace ((c :: cs).drop pat.length) pat rep := by
  have hie : pat.isEmpty = false := by
    cases pat with
    | nil => exact absurd rfl hne
    | cons p ps => rfl
  have hpat : 1 ≤ pat.length := by
    cases pat with
    | nil => exact absurd rfl hne
    | cons p ps => simp
  simp only [pyReplace, List.length_cons, pyReplaceF, h, hie, Bool.not_false, Bool.and_true,
    if_pos]
  congr 1
  apply pyReplaceF_fuel
  · simp only [List.length_drop, List.length_cons]; omega
  · omega

/-- str.replace consumes a leading occurrence of the pattern whole. -/
theorem pyReplace_append_match {p : Char} {ps : List Char} (b rep : List Char) :
    pyReplace ((p :: ps) ++ b) (p :: ps) rep = rep ++ pyReplace b (p :: ps) rep := by
  have h : (p :: ps).isPrefixOf ((p :: ps) ++ b) = true :=
    List.isPrefixOf_iff_prefix.mpr (List.prefix_append _ _)
  rw [show ((p :: ps) ++ b) = p :: (ps ++ b) from rfl] at h ⊢
  rw [pyReplace_cons_match rep (by simp) h]
  congr 2
  show (p :: (ps ++ b)).drop (ps.length + 1) = b
  simp only [List.drop_succ_cons]
  exact List.drop_left ps b

/-- str.replace with a one-character pattern and a one-character replacement
is a character map. -/
theorem pyReplace_single (a b : Char) (s : List Char) :
    pyReplace s [a] [b] = s.map (fun c => if c = a then b else c) := by
  induction s with
  | nil => rfl
  | cons c cs ih =>
    by_cases h : c = a
    · subst h
      have hp : [c].isPrefixOf (c :: cs) = true := by simp [List.isPrefixOf]
      rw [pyReplace_cons_match [b] (by simp) hp]
      simp only [List.length_cons, List.length_nil, Nat.zero_add, List.drop_succ_cons,
        List.drop_zero, List.map_cons, if_pos rfl]
      rw [ih]
      rfl
    · have hp : [a].isPrefixOf (c :: cs) = false := by
        simp [List.isPrefixOf, beq_eq_false_iff_ne, Ne.symm h]
      rw [pyReplace_cons_pass [b] hp]
      simp only [List.map_cons, if_neg h]
      rw [ih]

/-- A pattern cannot match where its first character differs. -/
theorem isPrefixOf_cons_ne {p c : Char} (ps l : List Char) (h : p ≠ c) :
    (p :: ps).isPrefixOf (c :: l) = false := by
  simp only [List.isPrefixOf]
  rw [beq_eq_false_iff_ne.mpr h, Bool.false_and]

/-- Leading occurrences of the TMP1 sentinel are consumed whole. -/
theorem pyReplace_T1_match (b rep : List Char) :
    pyReplace (sentTMP1 ++ b) sentTMP1 rep = rep ++ pyReplace b sentTMP1 rep :=
  pyReplace_append_match b rep

/-- Leading occurrences of the TMP2 sentinel are consumed whole. -/
theorem pyReplace_T2_match (b rep : List Char) :
    pyReplace (sentTMP2 ++ b) sentTMP2 rep = rep ++ pyReplace b sentTMP2 rep :=
  pyReplace_append_match b rep

/-- Leading occurrences of the TMP3 sentinel are consumed whole. -/
theorem pyReplace_T3_match (b rep : List Char) :
    pyReplace (sentTMP3 ++ b) sentTMP3 rep = rep ++ pyReplace b sentTMP3 rep :=
  pyReplace_append_match b rep

/-- A single-quote scan passes over a leading TMP1 block unchanged. -/
theorem pass_T1_sglq (b rep : List Char) :
    pyReplace (sentTMP1 ++ b) sglq rep = sentTMP1 ++ pyReplace b sglq rep := by
  show pyReplace ('T' :: 'M' :: 'P' :: '1' :: b) sglq rep = _
  rw [pyReplace_cons_pass rep (rfl : sglq.isPrefixOf ('T' :: 'M' :: 'P' :: '1' :: b) = false),
    pyReplace_cons_pass rep (rfl : sglq.isPrefixOf ('M' :: 'P' :: '1' :: b) = false),
    pyReplace_cons_pass rep (rfl : sglq.isPrefixOf ('P' :: '1' :: b) = false),
    pyReplace_cons_pass rep (rfl : sglq.isPrefixOf ('1' :: b) = false)]
  rfl

/-- Stage equation for Tier 1: its first two replaces turn the input into the
enc1d intermediate. -/
theorem tier1_stage12 (s : List Char) :
    pyReplace (pyReplace s dblq sentTMP1) sglq dblq = enc1d s := by
  induction s with
  | nil => rfl
  | cons c cs ih =>
    by_cases h : c = '"'
    · subst h
      have hpf : dblq.isPrefixOf ('"' :: cs) = true := by simp [dblq, List.isPrefixOf]
      rw [pyReplace_cons_match sentTMP1 (by simp [dblq]) hpf]
      rw [show ((('"' : Char) :: cs).drop dblq.length) = cs from rfl]
      rw [pass_T1_sglq, ih]
      simp [enc1d]
    · by_cases h2 : c = '\''
      · subst h2
        have hq : dblq.isPrefixOf ('\'' :: cs) = false :=
          isPrefixOf_cons_ne [] cs (by intro hq; exact absurd hq.symm h)
        rw [pyReplace_cons_pass sentTMP1 hq]
        have hpf : sglq.isPrefixOf ('\'' :: pyReplace cs dblq sentTMP1) = true := by
          simp [sglq, List.isPrefixOf]
        rw [pyReplace_cons_match dblq (by simp [sglq]) hpf]
        rw [show ((('\'' : Char) :: pyReplace cs dblq sentTMP1).drop sglq.length) =
          pyReplace cs dblq sentTMP1 from rfl]
        rw [ih]
        simp [enc1d, dblq]
      · have hq : dblq.isPrefixOf (c :: cs) = false :=
          isPrefixOf_cons_ne [] cs (fun hq => h hq.symm)
        have hq2 : sglq.isPrefixOf (c :: pyReplace cs dblq sentTMP1) = false :=
          isPrefixOf_cons_ne [] _ (fun hq => h2 hq.symm)
        rw [pyReplace_cons_pass sentTMP1 hq]
        rw [pyReplace_cons_pass dblq hq2]
        rw [ih]
        simp [enc1d, h, h2]

/-- Heads other than T and the double quote pass through enc1d unchanged. -/
theorem enc1d_head {r : List Char} {m : Char} {v : List Char}
    (h : enc1d r = m :: v) (hT : m ≠ 'T') (hq : m ≠ '"') :
    ∃ r2, r = m :: r2 ∧ v = enc1d r2 := by
  cases r with
  | nil => simp [enc1d] at h
  | cons c cs =>
    by_cases h1 : c = '"'
    · subst h1
      rw [show enc1d ('"' :: cs) = sentTMP1 ++ enc1d cs from by simp [enc1d]] at h
      rw [show sentTMP1 ++ enc1d cs = 'T' :: (chars "MP1" ++ enc1d cs) from rfl] at h
      exact absurd (List.cons.injEq .. ▸ h).1.symm hT
    · by_cases h2 : c = '\''
      · subst h2
        rw [show enc1d ('\'' :: cs) = '"' :: enc1d cs from by simp [enc1d]] at h
        exact absurd (List.cons.injEq .. ▸ h).1.symm hq
      · rw [show enc1d (c :: cs) = c :: enc1d cs from by simp [enc1d, h1, h2]] at h
        obtain ⟨hc, hv⟩ := List.cons.injEq .. ▸ h
        exact ⟨cs, by rw [hc], hv.symm⟩

/-- Restore stage of Tier 1 on the enc1d intermediate: when the input contains
no TMP1 text, restoring the sentinel completes the character-level quote swap. -/
theorem tier1_restore : ∀ (n : Nat) (s : List Char), s.length ≤ n → ¬ sentTMP1 <:+: s →
    pyReplace (enc1d s) sentTMP1 sglq = s.map swapQuote := by
  intro n
  induction n with
  | zero =>
    intro s hlen _
    cases s with
    | nil => rfl
    | cons c cs => simp at hlen
  | succ n ih =>
    intro s hlen hinf
    cases s with
    | nil => rfl
    | cons c cs =>
      have htail : ¬ sentTMP1 <:+: cs := fun hh => hinf (List.infix_cons hh)
      have hlen2 : cs.length ≤ n := by simp only [List.length_cons] at hlen; omega
      by_cases h : c = '"'
      · subst h
        rw [show enc1d ('"' :: cs) = sentTMP1 ++ enc1d cs from by simp [enc1d]]
        rw [pyReplace_T1_match, ih cs hlen2 htail]
        simp [sglq, swapQuote]
      · by_cases h2 : c = '\''
        · subst h2
          rw [show enc1d ('\'' :: cs) = '"' :: enc1d cs from by simp [enc1d]]
          have hq : sentTMP1.isPrefixOf ('"' :: enc1d cs) = false :=
            isPrefixOf_cons_ne _ _ (by decide)
          rw [pyReplace_cons_pass sglq hq, ih cs hlen2 htail]
          simp [swapQuote]
        · rw [show enc1d (c :: cs) = c :: enc1d cs from by simp [enc1d, h, h2]]
          by_cases hT : c = 'T'
          · subst hT
            cases hb : sentTMP1.isPrefixOf ('T' :: enc1d cs) with
            | false =>
              rw [pyReplace_cons_pass sglq hb, ih cs hlen2 htail]
              simp [swapQuote]
            | true =>
              exfalso
              obtain ⟨t, ht⟩ := List.isPrefixOf_iff_prefix.mp hb
              rw [show sentTMP1 ++ t = 'T' :: 'M' :: 'P' :: '1' :: t from rfl] at ht
              have henc : enc1d cs = 'M' :: ('P' :: '1' :: t) :=
                ((List.cons.injEq .. ▸ ht).2).symm
              obtain ⟨cs1, hcs1, hv1⟩ := enc1d_head henc (by decide) (by decide)
              obtain ⟨cs2, hcs2, hv2⟩ := enc1d_head hv1.symm (by decide) (by decide)
              obtain ⟨cs3, hcs3, _⟩ := enc1d_head hv2.symm (by decide) (by decide)
              apply hinf
              refine List.IsPrefix.isInfix ⟨cs3, ?_⟩
              rw [hcs1, hcs2, hcs3]
              rfl
          · have hq : sentTMP1.isPrefixOf (c :: enc1d cs) = false :=
              isPrefixOf_cons_ne _ _ (fun he => hT he.symm)
            rw [pyReplace_cons_pass sglq hq, ih cs hlen2 htail]
            simp [swapQuote, h, h2]

/-- On inputs free of the TMP1 sentinel, Tier 1 is the character-level quote
exchange. -/
theorem tier1_swap_eq (s : List Char) (h : ¬ sentTMP1 <:+: s) :
    tier1string s = s.map swapQuote := by
  show pyReplace (pyReplace (pyReplace s dblq sentTMP1) sglq dblq) sentTMP1 sglq = _
  rw [tier1_stage12, tier1_restore s.length s le_rfl h]

/-- The character-level quote exchange undoes itself. -/
theorem swapQuote_invol (c : Char) : swapQuote (swapQuote c) = c := by
  by_cases h1 : c = '"'
  · subst h1; decide
  · by_cases h2 : c = '\''
    · subst h2; decide
    · simp [swapQuote, h1, h2]

/-- The quote exchange does not create TMP1 occurrences. -/
theorem noT1_map {s : List Char} (h : ¬ sentTMP1 <:+: s) :
    ¬ sentTMP1 <:+: s.map swapQuote := by
  intro hc
  obtain ⟨u, v, huv⟩ := hc
  apply h
  have hmap := congrArg (List.map swapQuote) huv
  rw [List.map_append, List.map_append, List.map_map] at hmap
  rw [show List.map (swapQuote ∘ swapQuote) s = s from List.map_id'' swapQuote_invol s] at hmap
  rw [show List.map swapQuote sentTMP1 = sentTMP1 from by decide] at hmap
  exact ⟨List.map swapQuote u, List.map swapQuote v, hmap⟩

/-- The two sequential quote replaces of Tier 2 act as the character map
mergeQuotes: both quote kinds come out as double quotes. -/
theorem swapStep_eq_map (u : List Char) : swapStep u = u.map mergeQuotes := by
  show pyReplace (pyReplace u dblq sglq) sglq dblq = _
  rw [show dblq = ['"'] from rfl, show sglq = ['\''] from rfl]
  rw [pyReplace_single '"' '\'' u, pyReplace_single '\'' '"' _, List.map_map]
  apply List.map_congr_left
  intro c _
  by_cases h1 : c = '"'
  · subst h1; decide
  · by_cases h2 : c = '\''
    · subst h2; decide
    · simp [Function.comp, mergeQuotes, h1, h2]

/-- C10: restricted to inputs without the literal sentinel substring TMP1, the
Tier 1 transformation exchanges double and single quotes, leaves every other
character unchanged, and is an involution; on the input TMP1 itself the
exchange property fails and the output is corrupted beyond quote characters. -/
theorem tier1_exchange_involution :
    (∀ s : List Char, ¬ sentTMP1 <:+: s →
      tier1string s = s.map swapQuote ∧ tier1string (tier1string s) = s) ∧
    tier1string (chars "TMP1") = ['\''] ∧
    tier1string (chars "TMP1") ≠ (chars "TMP1").map swapQuote := by
  refine ⟨fun s h => ⟨tier1_swap_eq s h, ?_⟩, by decide, by decide⟩
  rw [tier1_swap_eq s h, tier1_swap_eq _ (noT1_map h), List.map_map]
  exact List.map_id'' swapQuote_invol s

/-- C10 witness: the exchange and the involution at a concrete quote-bearing
input without the sentinel. -/
theorem tier1_exchange_involution_witness :
    tier1string (chars "a'b\"c") = (chars "a'b\"c").map swapQuote ∧
    tier1string (tier1string (chars "a'b\"c")) = chars "a'b\"c" :=
  tier1_exchange_involution.1 (chars "a'b\"c") (by decide)

/-- C2 counterexample: on the one-character input holding a double quote, the
string handed to the JSON parser by Tier 2 still holds a double quote, not the
single quote that the claimed direction of the swap would produce. -/
theorem tier2_candidate_cex :
    tier2string ['"'] = ['"'] ∧ tier2string ['"'] ≠ ['\''] := ⟨by decide, by decide⟩

/-- C2 amended: Tier 2 protects the three patterns, then applies the two
quote replaces sequentially, whose net effect is the character map mergeQuotes
sending both quote kinds to a double quote — no character reaches the restore
stage as a single quote — and then restores the sentinels in the order TMP2,
TMP1, TMP3 before parsing. -/
theorem tier2_candidate_characterization :
    (∀ m : List Char, tier2string m = restoreStep ((protectStep m).map mergeQuotes)) ∧
    (∀ c : Char, mergeQuotes c ≠ '\'') := by
  constructor
  · intro m
    show restoreStep (swapStep (protectStep m)) = _
    rw [swapStep_eq_map]
  · intro c
    by_cases h1 : c = '"'
    · subst h1; decide
    · by_cases h2 : c = '\''
      · subst h2; decide
      · simp only [mergeQuotes, h1, h2, or_self, if_false]
        exact h2

/-- C1 counterexample: on the spec's first scenario input, the Tier 1 repair
does not succeed — its candidate string single-quotes the value 5 minutes and
json.loads rejects it. -/
theorem scenario1_tier1_fails :
    tier1string scenario1Input =
      chars "\x7b\"Steps\": [\"Open file\", \"Read it\"], \"Number of steps\": 2, \"How long did this take?\": '5 minutes', \"Tools\": [], \"Number of tools\": 0\x7d" ∧
    json_loads (tier1string scenario1Input) = none := ⟨rfl, rfl⟩

/-- C1 amended: on the spec's first scenario input Tier 1 fails to parse,
Tier 2 succeeds, and the resulting record is exactly the one claimed. -/
theorem scenario1_record :
    json_loads (tier1string scenario1Input) = none ∧
    preprocess_annotator_metadata scenario1Input = Except.ok
      ⟨Json.arr [Json.str (chars "Open file"), Json.str (chars "Read it")],
       Json.num 2, Json.str (chars "5 minutes"), Json.arr [], Json.num 0⟩ := ⟨rfl, rfl⟩

/-- C4: on the spec's second scenario input Tier 1 fails to parse, Tier 2
reproduces the input verbatim and succeeds, the recovered steps keep the
contraction byte-identical, and the num-tools coercion maps none to null. -/
theorem scenario2_behavior :
    json_loads (tier1string scenario2Input) = none ∧
    tier2string scenario2Input = scenario2Input ∧
    preprocess_annotator_metadata scenario2Input = Except.ok
      ⟨Json.arr [Json.str (chars "Ask the user what's needed")], Json.num 1,
       Json.str (chars "1 minute"), Json.arr [], Json.str (chars "none")⟩ ∧
    to_numeric_coerce (Json.str (chars "none")) = Except.ok none := ⟨rfl, rfl, rfl, rfl⟩

/-- C5: whenever both candidate strings fail to parse, fix_json_structure
propagates the JSON decode error of the second attempt; there is no third
fallback and no default value. -/
theorem fix_json_both_tiers_fail (m : List Char)
    (h1 : json_loads (tier1string m) = none) (h2 : json_loads (tier2string m) = none) :
    fix_json_structure m = Except.error PErr.jsonDecodeError := by
  simp [fix_json_structure, h1, h2]

/-- C5 witness: a concrete string rejected by both tiers. -/
theorem fix_json_both_tiers_fail_witness :
    fix_json_structure (chars "x") = Except.error PErr.jsonDecodeError :=
  fix_json_both_tiers_fail (chars "x") rfl rfl

/-- C6: whenever fix_json_structure succeeds with an object, the extraction
reads exactly the five fixed keys and returns the five-field record of their
values; if any of the five keys is missing it fails with the key error instead
of defaulting. -/
theorem preprocess_exact_five_keys (m : List Char) (kvs : List (List Char × Json))
    (h : fix_json_structure m = Except.ok (Json.obj kvs)) :
    (∀ v1 v2 v3 v4 v5 : Json,
      dictGet kvs keySteps = some v1 → dictGet kvs keyNumSteps = some v2 →
      dictGet kvs keyTimeTaken = some v3 → dictGet kvs keyTools = some v4 →
      dictGet kvs keyNumTools = some v5 →
      preprocess_annotator_metadata m = Except.ok ⟨v1, v2, v3, v4, v5⟩) ∧
    ((dictGet kvs keySteps = none ∨ dictGet kvs keyNumSteps = none ∨
      dictGet kvs keyTimeTaken = none ∨ dictGet kvs keyTools = none ∨
      dictGet kvs keyNumTools = none) →
      preprocess_annotator_metadata m = Except.error PErr.keyError) := by
  have hred : preprocess_annotator_metadata m =
      (match dictGet kvs keySteps, dictGet kvs keyNumSteps, dictGet kvs keyTimeTaken,
          dictGet kvs keyTools, dictGet kvs keyNumTools with
       | some v1, some v2, some v3, some v4, some v5 => Except.ok ⟨v1, v2, v3, v4, v5⟩
       | _, _, _, _, _ => Except.error PErr.keyError) := by
    unfold preprocess_annotator_metadata
    rw [h]
  constructor
  · intro v1 v2 v3 v4 v5 h1 h2 h3 h4 h5
    rw [hred, h1, h2, h3, h4, h5]
  · intro hmiss
    rw [hred]
    cases h1 : dictGet kvs keySteps <;> cases h2 : dictGet kvs keyNumSteps <;>
      cases h3 : dictGet kvs keyTimeTaken <;> cases h4 : dictGet kvs keyTools <;>
      cases h5 : dictGet kvs keyNumTools <;> simp_all

/-- C6 witness: extraction succeeds on a five-key metadata string and raises
the key error on a four-key one. -/
theorem preprocess_exact_five_keys_witness :
    preprocess_annotator_metadata fiveKeyInput = Except.ok
      ⟨Json.arr [], Json.num 2, Json.str (chars "5m"), Json.arr [], Json.num 0⟩ ∧
    preprocess_annotator_metadata fourKeyInput = Except.error PErr.keyError :=
  ⟨(preprocess_exact_five_keys fiveKeyInput
      [(keySteps, Json.arr []), (keyNumSteps, Json.num 2),
       (keyTimeTaken, Json.str (chars "5m")), (keyTools, Json.arr []),
       (keyNumTools, Json.num 0)] rfl).1 _ _ _ _ _ rfl rfl rfl rfl rfl,
   (preprocess_exact_five_keys fourKeyInput
      [(keySteps, Json.arr []), (keyNumSteps, Json.num 2),
       (keyTimeTaken, Json.str (chars "5m")), (keyNumTools, Json.num 0)] rfl).2
     (Or.inr (Or.inr (Or.inr (Or.inl rfl))))⟩

/-- C7: with no discovered files, load_datasets_from_filesystem raises the
ValueError and main therefore produces no external action at all — in
particular it neither obtains the connection string nor creates the engine. -/
theorem load_fails_without_files (env : Env) (h : env.files = []) :
    load_datasets_from_filesystem env = Except.error PErr.valueError ∧
    (DataLoader.main env).1 = [] ∧
    (DataLoader.main env).2 = some PErr.valueError ∧
    Event.get_postgres_conn_string ∉ (DataLoader.main env).1 ∧
    Event.create_engine ∉ (DataLoader.main env).1 := by
  have hl : load_datasets_from_filesystem env = Except.error PErr.valueError := by
    simp [load_datasets_from_filesystem, h]
  refine ⟨hl, ?_, ?_, ?_, ?_⟩ <;> simp [DataLoader.main, hl]

/-- C7 witness: the empty environment. -/
theorem load_fails_without_files_witness :
    load_datasets_from_filesystem ⟨[]⟩ = Except.error PErr.valueError ∧
    (DataLoader.main ⟨[]⟩).1 = [] ∧
    (DataLoader.main ⟨[]⟩).2 = some PErr.valueError ∧
    Event.get_postgres_conn_string ∉ (DataLoader.main ⟨[]⟩).1 ∧
    Event.create_engine ∉ (DataLoader.main ⟨[]⟩).1 :=
  load_fails_without_files ⟨[]⟩ rfl

/-- C8 counterexample: the coercion of the metadata_num_tools column is not
exception-free — on the numeric cell "2.5", pd.to_numeric yields the
non-integral scalar 2.5 and the astype Int64 safe cast raises a TypeError
instead of producing null or an integer. -/
theorem num_tools_coercion_cex :
    to_numeric_coerce (Json.str (chars "2.5")) = Except.error PErr.typeError ∧
    to_numeric_cell (Json.str (chars "2.5")) = some ⟨25, 1⟩ := ⟨rfl, rfl⟩

/-- C8 amended: the metadata_num_tools coercion maps every non-numeric cell
(including strings like none) to null without raising, preserves integer
cells exactly, evaluates decimal and exponent string forms (2.0 to 2, 1e2 to
100), and raises only on a numeric cell whose value is not an integer; the
row coercion applies exactly this cell function to metadata_num_tools. -/
theorem num_tools_coercion_behavior :
    (∀ r : FlatRow0, coerce_num_tools_row r = Except.map (fun k =>
      { task_id := r.task_id, question := r.question, level := r.level, answer := r.answer,
        file_name := r.file_name, file_path := r.file_path,
        metadata_steps := r.metadata_steps, metadata_num_steps := r.metadata_num_steps,
        metadata_time_taken := r.metadata_time_taken, metadata_tools := r.metadata_tools,
        metadata_num_tools := k })
      (to_numeric_coerce r.metadata_num_tools)) ∧
    (∀ n : Int, to_numeric_coerce (Json.num n) = Except.ok (some n)) ∧
    (∀ v : Json, isNumericCell v = false → to_numeric_coerce v = Except.ok none) ∧
    (∀ v : Json, (∃ e, to_numeric_coerce v = Except.error e) →
      ∃ d, to_numeric_cell v = some d ∧ d.mant % (10 : Int) ^ d.scale ≠ 0) ∧
    to_numeric_coerce (Json.str (chars "2.0")) = Except.ok (some 2) ∧
    to_numeric_coerce (Json.str (chars "1e2")) = Except.ok (some 100) ∧
    to_numeric_coerce (Json.str (chars "none")) = Except.ok none := by
  refine ⟨fun r => rfl, ?_, ?_, ?_, rfl, rfl, rfl⟩
  · intro n
    show astypeInt64 (some ⟨n, 0⟩) = Except.ok (some n)
    simp [astypeInt64]
  · intro v hv
    have hcell : to_numeric_cell v = none := by
      cases v with
      | num n => simp [isNumericCell] at hv
      | bool b => simp [isNumericCell] at hv
      | str s =>
        show parseDecimalString s = none
        cases hp : parseDecimalString s with
        | none => rfl
        | some d =>
          rw [show isNumericCell (Json.str s) = (parseDecimalString s).isSome from rfl,
            hp] at hv
          simp at hv
      | null => rfl
      | arr l => rfl
      | obj l => rfl
    show astypeInt64 (to_numeric_cell v) = Except.ok none
    rw [hcell]
    rfl
  · intro v hv
    obtain ⟨e, he⟩ := hv
    cases hcell : to_numeric_cell v with
    | none =>
      rw [show to_numeric_coerce v = astypeInt64 (to_numeric_cell v) from rfl, hcell] at he
      simp [astypeInt64] at he
    | some d =>
      refine ⟨d, rfl, ?_⟩
      intro hz
      rw [show to_numeric_coerce v = astypeInt64 (to_numeric_cell v) from rfl, hcell] at he
      simp [astypeInt64, hz] at he

/-- C8 witness: a non-numeric container cell coerces to null without raising,
and an integer cell passes through. -/
theorem num_tools_coercion_behavior_witness :
    to_numeric_coerce (Json.arr []) = Except.ok none ∧
    to_numeric_coerce (Json.num 7) = Except.ok (some 7) :=
  ⟨num_tools_coercion_behavior.2.2.1 (Json.arr []) rfl,
   num_tools_coercion_behavior.2.1 7⟩

/-- C9: every row produced by the per-file pipeline carries the fixed bucket
prefix concatenated with its own file_name as file_path; in particular a row
named report.pdf gets the path damg7374-a1-store/report.pdf. -/
theorem file_path_rewrite :
    (∀ (rows : List RawRow) (out : List FlatRow), process_rows rows = Except.ok out →
      ∀ r ∈ out, r.file_path = bucketPrefix ++ r.file_name) ∧
    (∀ r : FlatRow, r.file_name = chars "report.pdf" →
      (rewrite_file_path r).file_path = chars "damg7374-a1-store/report.pdf") := by
  constructor
  · intro rows out h r hr
    unfold process_rows at h
    cases hm : rows.mapM (fun r =>
        Except.map (fun m => flattenRow r m)
          (preprocess_annotator_metadata r.annotator_metadata)) with
    | error e => rw [hm] at h; simp [Except.bind] at h
    | ok l =>
      rw [hm] at h
      simp only [Except.bind] at h
      cases hm2 : l.mapM coerce_num_tools_row with
      | error e => rw [hm2] at h; simp [Except.map] at h
      | ok l2 =>
        rw [hm2] at h
        simp only [Except.map] at h
        have hout : out = l2.map rewrite_file_path := by
          injection h with h'
          exact h'.symm
        rw [hout] at hr
        obtain ⟨x, _, hxr⟩ := List.mem_map.mp hr
        rw [← hxr]
        simp [rewrite_file_path]
  · intro r h
    simp [rewrite_file_path, h, bucketPrefix, chars]

/-- C9 witness: the pipeline on a concrete row named report.pdf, and the
rewrite at the concrete flattened row. -/
theorem file_path_rewrite_witness :
    sampleFlatRow.file_path = bucketPrefix ++ sampleFlatRow.file_name ∧
    (rewrite_file_path sampleFlatRow).file_path = chars "damg7374-a1-store/report.pdf" :=
  ⟨file_path_rewrite.1 [sampleRawRow] [sampleFlatRow] rfl sampleFlatRow
     (List.mem_cons_self _ _),
   file_path_rewrite.2 sampleFlatRow rfl⟩

/-- A contracted-t scan passes over a leading TMP1 block. -/
theorem passT1qt (b rep : List Char) :
    pyReplace (sentTMP1 ++ b) patQT rep = sentTMP1 ++ pyReplace b patQT rep := by
  show pyReplace ('T' :: 'M' :: 'P' :: '1' :: b) patQT rep
    = 'T' :: 'M' :: 'P' :: '1' :: pyReplace b patQT rep
  rw [pyReplace_cons_pass rep (rfl : patQT.isPrefixOf ('T' :: 'M' :: 'P' :: '1' :: b) = false),
    pyReplace_cons_pass rep (rfl : patQT.isPrefixOf ('M' :: 'P' :: '1' :: b) = false),
    pyReplace_cons_pass rep (rfl : patQT.isPrefixOf ('P' :: '1' :: b) = false),
    pyReplace_cons_pass rep (rfl : patQT.isPrefixOf ('1' :: b) = false)]

/-- A parenthesis-pattern scan passes over a leading TMP1 block. -/
theorem passT1qp (b rep : List Char) :
    pyReplace (sentTMP1 ++ b) patQP rep = sentTMP1 ++ pyReplace b patQP rep := by
  show pyReplace ('T' :: 'M' :: 'P' :: '1' :: b) patQP rep
    = 'T' :: 'M' :: 'P' :: '1' :: pyReplace b patQP rep
  rw [pyReplace_cons_pass rep (rfl : patQP.isPrefixOf ('T' :: 'M' :: 'P' :: '1' :: b) = false),
    pyReplace_cons_pass rep (rfl : patQP.isPrefixOf ('M' :: 'P' :: '1' :: b) = false),
    pyReplace_cons_pass rep (rfl : patQP.isPrefixOf ('P' :: '1' :: b) = false),
    pyReplace_cons_pass rep (rfl : patQP.isPrefixOf ('1' :: b) = false)]

/-- A parenthesis-pattern scan passes over a leading TMP2 block. -/
theorem passT2qp (b rep : List Char) :
    pyReplace (sentTMP2 ++ b) patQP rep = sentTMP2 ++ pyReplace b patQP rep := by
  show pyReplace ('T' :: 'M' :: 'P' :: '2' :: b) patQP rep
    = 'T' :: 'M' :: 'P' :: '2' :: pyReplace b patQP rep
  rw [pyReplace_cons_pass rep (rfl : patQP.isPrefixOf ('T' :: 'M' :: 'P' :: '2' :: b) = false),
    pyReplace_cons_pass rep (rfl : patQP.isPrefixOf ('M' :: 'P' :: '2' :: b) = false),
    pyReplace_cons_pass rep (rfl : patQP.isPrefixOf ('P' :: '2' :: b) = false),
    pyReplace_cons_pass rep (rfl : patQP.isPrefixOf ('2' :: b) = false)]

/-- A TMP2 scan passes over a leading TMP1 block. -/
theorem passT1T2 (b rep : List Char) :
    pyReplace (sentTMP1 ++ b) sentTMP2 rep = sentTMP1 ++ pyReplace b sentTMP2 rep := by
  show pyReplace ('T' :: 'M' :: 'P' :: '1' :: b) sentTMP2 rep
    = 'T' :: 'M' :: 'P' :: '1' :: pyReplace b sentTMP2 rep
  rw [pyReplace_cons_pass rep (rfl : sentTMP2.isPrefixOf ('T' :: 'M' :: 'P' :: '1' :: b) = false),
    pyReplace_cons_pass rep (rfl : sentTMP2.isPrefixOf ('M' :: 'P' :: '1' :: b) = false),
    pyReplace_cons_pass rep (rfl : sentTMP2.isPrefixOf ('P' :: '1' :: b) = false),
    pyReplace_cons_pass rep (rfl : sentTMP2.isPrefixOf ('1' :: b) = false)]

/-- A TMP2 scan passes over a leading TMP3 block. -/
theorem passT3T2 (b rep : List Char) :
    pyReplace (sentTMP3 ++ b) sentTMP2 rep = sentTMP3 ++ pyReplace b sentTMP2 rep := by
  show pyReplace ('T' :: 'M' :: 'P' :: '3' :: b) sentTMP2 rep
    = 'T' :: 'M' :: 'P' :: '3' :: pyReplace b sentTMP2 rep
  rw [pyReplace_cons_pass rep (rfl : sentTMP2.isPrefixOf ('T' :: 'M' :: 'P' :: '3' :: b) = false),
    pyReplace_cons_pass rep (rfl : sentTMP2.isPrefixOf ('M' :: 'P' :: '3' :: b) = false),
    pyReplace_cons_pass rep (rfl : sentTMP2.isPrefixOf ('P' :: '3' :: b) = false),
    pyReplace_cons_pass rep (rfl : sentTMP2.isPrefixOf ('3' :: b) = false)]

/-- A TMP1 scan passes over a leading TMP3 block. -/
theorem passT3T1 (b rep : List Char) :
    pyReplace (sentTMP3 ++ b) sentTMP1 rep = sentTMP3 ++ pyReplace b sentTMP1 rep := by
  show pyReplace ('T' :: 'M' :: 'P' :: '3' :: b) sentTMP1 rep
    = 'T' :: 'M' :: 'P' :: '3' :: pyReplace b sentTMP1 rep
  rw [pyReplace_cons_pass rep (rfl : sentTMP1.isPrefixOf ('T' :: 'M' :: 'P' :: '3' :: b) = false),
    pyReplace_cons_pass rep (rfl : sentTMP1.isPrefixOf ('M' :: 'P' :: '3' :: b) = false),
    pyReplace_cons_pass rep (rfl : sentTMP1.isPrefixOf ('P' :: '3' :: b) = false),
    pyReplace_cons_pass rep (rfl : sentTMP1.isPrefixOf ('3' :: b) = false)]

/-- A leading contracted-s pattern is consumed whole by its own scan. -/
theorem pyReplace_QS_match (b rep : List Char) :
    pyReplace ('\'' :: 's' :: b) patQS rep = rep ++ pyReplace b patQS rep :=
  pyReplace_append_match b rep

/-- A leading contracted-t pattern is consumed whole by its own scan. -/
theorem pyReplace_QT_match (b rep : List Char) :
    pyReplace ('\'' :: 't' :: b) patQT rep = rep ++ pyReplace b patQT rep :=
  pyReplace_append_match b rep

/-- A leading parenthesis pattern is consumed whole by its own scan. -/
theorem pyReplace_QP_match (b rep : List Char) :
    pyReplace ('\'' :: '(' :: b) patQP rep = rep ++ pyReplace b patQP rep :=
  pyReplace_append_match b rep

/-- str.replace with an empty pattern in this model passes every character. -/
theorem pyReplace_cons_nilpat (c : Char) (cs rep : List Char) :
    pyReplace (c :: cs) [] rep = c :: pyReplace cs [] rep := by
  simp [pyReplace, pyReplaceF, List.isEmpty]

/-- Heads that differ from the replacement's head pass through str.replace. -/
theorem pyReplace_head_transfer {pat : List Char} {rh : Char} {rt : List Char} {m : Char}
    (hne : rh ≠ m) : ∀ {X v : List Char}, pyReplace X pat (rh :: rt) = m :: v →
    ∃ X2, X = m :: X2 ∧ v = pyReplace X2 pat (rh :: rt) := by
  intro X v h
  cases X with
  | nil => simp [pyReplace, pyReplaceF] at h
  | cons c cs =>
    cases pat with
    | nil =>
      rw [pyReplace_cons_nilpat] at h
      obtain ⟨hc, hv⟩ := List.cons.injEq .. ▸ h
      exact ⟨cs, by rw [hc], hv.symm⟩
    | cons p ps =>
      cases hb : (p :: ps).isPrefixOf (c :: cs) with
      | true =>
        rw [pyReplace_cons_match (rh :: rt) (by simp) hb] at h
        exact absurd (List.cons.injEq .. ▸ h).1 hne
      | false =>
        rw [pyReplace_cons_pass (rh :: rt) hb] at h
        obtain ⟨hc, hv⟩ := List.cons.injEq .. ▸ h
        exact ⟨cs, by rw [hc], hv.symm⟩

/-- The protection image of a string: positive equations of enc2. -/
theorem enc2_qs (r : List Char) : enc2 ('\'' :: 's' :: r) = sentTMP1 ++ enc2 r := by
  simp [enc2]

/-- Protection image of a contracted t. -/
theorem enc2_qt (r : List Char) : enc2 ('\'' :: 't' :: r) = sentTMP2 ++ enc2 r := by
  simp [enc2]

/-- Protection image of a quote-parenthesis pair. -/
theorem enc2_qp (r : List Char) : enc2 ('\'' :: '(' :: r) = sentTMP3 ++ enc2 r := by
  simp [enc2]

/-- Characters other than the single quote pass through enc2. -/
theorem enc2_cons_ne {c : Char} (h : c ≠ '\'') (r : List Char) :
    enc2 (c :: r) = c :: enc2 r := by
  cases r with
  | nil => simp [enc2]
  | cons d rr => simp [enc2, h]

/-- Heads other than T pass through enc2 unchanged. -/
theorem enc2_head {r : List Char} {m : Char} {v : List Char}
    (h : enc2 r = m :: v) (hT : m ≠ 'T') :
    ∃ r2, r = m :: r2 ∧ v = enc2 r2 := by
  cases r with
  | nil => simp [enc2] at h
  | cons c cs =>
    cases cs with
    | nil =>
      rw [show enc2 [c] = [c] from by simp [enc2]] at h
      obtain ⟨hc, hv⟩ := List.cons.injEq .. ▸ h
      exact ⟨[], by rw [hc], by rw [← hv]; rfl⟩
    | cons d rr =>
      by_cases h1 : c = '\'' ∧ d = 's'
      · obtain ⟨hc, hd⟩ := h1
        subst hc; subst hd
        rw [enc2_qs] at h
        exact absurd (List.cons.injEq .. ▸ h).1 (fun he => hT he.symm)
      · by_cases h2 : c = '\'' ∧ d = 't'
        · obtain ⟨hc, hd⟩ := h2
          subst hc; subst hd
          rw [enc2_qt] at h
          exact absurd (List.cons.injEq .. ▸ h).1 (fun he => hT he.symm)
        · by_cases h3 : c = '\'' ∧ d = '('
          · obtain ⟨hc, hd⟩ := h3
            subst hc; subst hd
            rw [enc2_qp] at h
            exact absurd (List.cons.injEq .. ▸ h).1 (fun he => hT he.symm)
          · rw [show enc2 (c :: d :: rr) = c :: enc2 (d :: rr) from by
              simp only [enc2, if_neg h1, if_neg h2, if_neg h3]] at h
            obtain ⟨hc, hv⟩ := List.cons.injEq .. ▸ h
            exact ⟨d :: rr, by rw [hc], hv.symm⟩

/-- Sentinel-freedom descends to the tail. -/
theorem noTMP_tail {c : Char} {r : List Char} (h : noTMP (c :: r)) : noTMP r := by
  obtain ⟨h1, h2, h3⟩ := h
  exact ⟨fun hh => h1 (List.infix_cons hh), fun hh => h2 (List.infix_cons hh),
    fun hh => h3 (List.infix_cons hh)⟩

/-- Non-quote heads leave the protection predicate unchanged. -/
theorem qp_cons_ne {c : Char} (h : c ≠ '\'') (r : List Char) :
    quotesProtected (c :: r) = quotesProtected r := by
  cases r with
  | nil => simp [quotesProtected, h]
  | cons d rr => simp [quotesProtected, h]

/-- A protected single quote is followed by one of the three pattern letters. -/
theorem qp_quote {d : Char} {r : List Char} (h : quotesProtected ('\'' :: d :: r) = true) :
    (d = 's' ∨ d = 't' ∨ d = '(') ∧ quotesProtected (d :: r) = true := by
  by_cases hd : d = 's' ∨ d = 't' ∨ d = '('
  · refine ⟨hd, ?_⟩
    simpa [quotesProtected, hd] using h
  · simp [quotesProtected, hd] at h

/-- Protection stage equation: on a quote-protected string the three pattern
replaces of Tier 2 produce exactly the enc2 image. -/
theorem protect_eq_enc2 : ∀ (n : Nat) (s : List Char), s.length ≤ n →
    quotesProtected s = true → protectStep s = enc2 s := by
  intro n
  induction n with
  | zero =>
    intro s hlen _
    cases s with
    | nil => rfl
    | cons c cs => simp at hlen
  | succ n ih =>
    intro s hlen hqp
    cases s with
    | nil => rfl
    | cons c cs =>
      by_cases hc : c = '\''
      · subst hc
        cases cs with
        | nil => simp [quotesProtected] at hqp
        | cons d rr =>
          obtain ⟨hd, hqd⟩ := qp_quote hqp
          have hlen2 : rr.length ≤ n := by simp only [List.length_cons] at hlen; omega
          rcases hd with hd | hd | hd
          · subst hd
            have hqrr : quotesProtected rr = true := by
              rw [qp_cons_ne (by decide) rr] at hqd; exact hqd
            show pyReplace (pyReplace (pyReplace ('\'' :: 's' :: rr) patQS sentTMP1)
              patQT sentTMP2) patQP sentTMP3 = _
            rw [pyReplace_QS_match, passT1qt, passT1qp]
            rw [show pyReplace (pyReplace (pyReplace rr patQS sentTMP1) patQT sentTMP2)
              patQP sentTMP3 = enc2 rr from ih rr hlen2 hqrr]
            rw [enc2_qs]
          · subst hd
            have hqrr : quotesProtected rr = true := by
              rw [qp_cons_ne (by decide) rr] at hqd; exact hqd
            show pyReplace (pyReplace (pyReplace ('\'' :: 't' :: rr) patQS sentTMP1)
              patQT sentTMP2) patQP sentTMP3 = _
            rw [pyReplace_cons_pass sentTMP1 (rfl : patQS.isPrefixOf ('\'' :: 't' :: rr) = false)]
            rw [pyReplace_cons_pass sentTMP1 (rfl : patQS.isPrefixOf ('t' :: rr) = false)]
            rw [pyReplace_QT_match, passT2qp]
            rw [show pyReplace (pyReplace (pyReplace rr patQS sentTMP1) patQT sentTMP2)
              patQP sentTMP3 = enc2 rr from ih rr hlen2 hqrr]
            rw [enc2_qt]
          · subst hd
            have hqrr : quotesProtected rr = true := by
              rw [qp_cons_ne (by decide) rr] at hqd; exact hqd
            show pyReplace (pyReplace (pyReplace ('\'' :: '(' :: rr) patQS sentTMP1)
              patQT sentTMP2) patQP sentTMP3 = _
            rw [pyReplace_cons_pass sentTMP1 (rfl : patQS.isPrefixOf ('\'' :: '(' :: rr) = false)]
            rw [pyReplace_cons_pass sentTMP1 (rfl : patQS.isPrefixOf ('(' :: rr) = false)]
            rw [pyReplace_cons_pass sentTMP2
              (rfl : patQT.isPrefixOf ('\'' :: '(' :: pyReplace rr patQS sentTMP1) = false)]
            rw [pyReplace_cons_pass sentTMP2
              (rfl : patQT.isPrefixOf ('(' :: pyReplace rr patQS sentTMP1) = false)]
            rw [pyReplace_QP_match]
            rw [show pyReplace (pyReplace (pyReplace rr patQS sentTMP1) patQT sentTMP2)
              patQP sentTMP3 = enc2 rr from ih rr hlen2 hqrr]
            rw [enc2_qp]
      · have hq : quotesProtected cs = true := by rw [qp_cons_ne hc cs] at hqp; exact hqp
        have hlen2 : cs.length ≤ n := by simp only [List.length_cons] at hlen; omega
        have hq1 : patQS.isPrefixOf (c :: cs) = false :=
          isPrefixOf_cons_ne _ _ (fun he => hc he.symm)
        show pyReplace (pyReplace (pyReplace (c :: cs) patQS sentTMP1) patQT sentTMP2)
          patQP sentTMP3 = _
        rw [pyReplace_cons_pass sentTMP1 hq1]
        have hq2 : patQT.isPrefixOf (c :: pyReplace cs patQS sentTMP1) = false :=
          isPrefixOf_cons_ne _ _ (fun he => hc he.symm)
        rw [pyReplace_cons_pass sentTMP2 hq2]
        have hq3 : patQP.isPrefixOf
            (c :: pyReplace (pyReplace cs patQS sentTMP1) patQT sentTMP2) = false :=
          isPrefixOf_cons_ne _ _ (fun he => hc he.symm)
        rw [pyReplace_cons_pass sentTMP3 hq3]
        rw [show pyReplace (pyReplace (pyReplace cs patQS sentTMP1) patQT sentTMP2)
          patQP sentTMP3 = enc2 cs from ih cs hlen2 hq]
        rw [enc2_cons_ne hc]

/-- The enc2 image of a quote-protected string contains no single quote. -/
theorem enc2_no_quote : ∀ (n : Nat) (s : List Char), s.length ≤ n →
    quotesProtected s = true → ∀ c ∈ enc2 s, c ≠ '\'' := by
  intro n
  induction n with
  | zero =>
    intro s hlen _ c hc
    cases s with
    | nil => simp [enc2] at hc
    | cons a as => simp at hlen
  | succ n ih =>
    intro s hlen hqp c hc
    cases s with
    | nil => simp [enc2] at hc
    | cons a as =>
      by_cases ha : a = '\''
      · subst ha
        cases as with
        | nil => simp [quotesProtected] at hqp
        | cons d rr =>
          obtain ⟨hd, hqd⟩ := qp_quote hqp
          have hlen2 : rr.length ≤ n := by simp only [List.length_cons] at hlen; omega
          rcases hd with hd | hd | hd
          · subst hd
            rw [enc2_qs] at hc
            rcases List.mem_append.mp hc with h | h
            · simp [sentTMP1] at h
              rcases h with rfl | rfl | rfl | rfl <;> decide
            · exact ih rr hlen2 (by rw [qp_cons_ne (by decide) rr] at hqd; exact hqd) c h
          · subst hd
            rw [enc2_qt] at hc
            rcases List.mem_append.mp hc with h | h
            · simp [sentTMP2] at h
              rcases h with rfl | rfl | rfl | rfl <;> decide
            · exact ih rr hlen2 (by rw [qp_cons_ne (by decide) rr] at hqd; exact hqd) c h
          · subst hd
            rw [enc2_qp] at hc
            rcases List.mem_append.mp hc with h | h
            · simp [sentTMP3] at h
              rcases h with rfl | rfl | rfl | rfl <;> decide
            · exact ih rr hlen2 (by rw [qp_cons_ne (by decide) rr] at hqd; exact hqd) c h
      · rw [enc2_cons_ne ha] at hc
        rcases List.mem_cons.mp hc with rfl | h
        · exact ha
        · have hq : quotesProtected as = true := by rw [qp_cons_ne ha as] at hqp; exact hqp
          have hlen2 : as.length ≤ n := by simp only [List.length_cons] at hlen; omega
          exact ih as hlen2 hq c h

/-- The two sequential quote replaces leave a quote-free string unchanged. -/
theorem swapStep_id {u : List Char} (h : ∀ c ∈ u, c ≠ '\'') : swapStep u = u := by
  rw [swapStep_eq_map]
  have hm : ∀ c ∈ u, mergeQuotes c = c := by
    intro c hc
    by_cases h1 : c = '"'
    · subst h1; decide
    · simp [mergeQuotes, h1, h c hc]
  exact (List.map_congr_left hm).trans (List.map_id' u)

/-- A TMP3 scan passes over a restored contracted-s block. -/
theorem passQSblkT3 (b rep : List Char) :
    pyReplace (patQS ++ b) sentTMP3 rep = patQS ++ pyReplace b sentTMP3 rep := by
  show pyReplace ('\'' :: 's' :: b) sentTMP3 rep = '\'' :: 's' :: pyReplace b sentTMP3 rep
  rw [pyReplace_cons_pass rep (rfl : sentTMP3.isPrefixOf ('\'' :: 's' :: b) = false),
    pyReplace_cons_pass rep (rfl : sentTMP3.isPrefixOf ('s' :: b) = false)]

/-- A TMP1 scan passes over a restored contracted-t block. -/
theorem passQTblkT1 (b rep : List Char) :
    pyReplace (patQT ++ b) sentTMP1 rep = patQT ++ pyReplace b sentTMP1 rep := by
  show pyReplace ('\'' :: 't' :: b) sentTMP1 rep = '\'' :: 't' :: pyReplace b sentTMP1 rep
  rw [pyReplace_cons_pass rep (rfl : sentTMP1.isPrefixOf ('\'' :: 't' :: b) = false),
    pyReplace_cons_pass rep (rfl : sentTMP1.isPrefixOf ('t' :: b) = false)]

/-- A TMP3 scan passes over a restored contracted-t block. -/
theorem passQTblkT3 (b rep : List Char) :
    pyReplace (patQT ++ b) sentTMP3 rep = patQT ++ pyReplace b sentTMP3 rep := by
  show pyReplace ('\'' :: 't' :: b) sentTMP3 rep = '\'' :: 't' :: pyReplace b sentTMP3 rep
  rw [pyReplace_cons_pass rep (rfl : sentTMP3.isPrefixOf ('\'' :: 't' :: b) = false),
    pyReplace_cons_pass rep (rfl : sentTMP3.isPrefixOf ('t' :: b) = false)]

/-- Restore stage equation: on the enc2 image of a quote-protected,
sentinel-free string, the three restores of Tier 2 rebuild the original. -/
theorem restore_enc2 : ∀ (n : Nat) (s : List Char), s.length ≤ n →
    quotesProtected s = true → noTMP s → restoreStep (enc2 s) = s := by
  intro n
  induction n with
  | zero =>
    intro s hlen _ _
    cases s with
    | nil => rfl
    | cons c cs => simp at hlen
  | succ n ih =>
    intro s hlen hqp htmp
    cases s with
    | nil => rfl
    | cons c cs =>
      by_cases hc : c = '\''
      · subst hc
        cases cs with
        | nil => simp [quotesProtected] at hqp
        | cons d rr =>
          obtain ⟨hd, hqd⟩ := qp_quote hqp
          have hlen2 : rr.length ≤ n := by simp only [List.length_cons] at hlen; omega
          have htmp2 : noTMP rr := noTMP_tail (noTMP_tail htmp)
          rcases hd with hd | hd | hd
          · subst hd
            have hqrr : quotesProtected rr = true := by
              rw [qp_cons_ne (by decide) rr] at hqd; exact hqd
            rw [enc2_qs]
            show pyReplace (pyReplace (pyReplace (sentTMP1 ++ enc2 rr) sentTMP2 patQT)
              sentTMP1 patQS) sentTMP3 patQP = _
            rw [passT1T2, pyReplace_T1_match, passQSblkT3]
            rw [show pyReplace (pyReplace (pyReplace (enc2 rr) sentTMP2 patQT)
              sentTMP1 patQS) sentTMP3 patQP = rr from ih rr hlen2 hqrr htmp2]
            rfl
          · subst hd
            have hqrr : quotesProtected rr = true := by
              rw [qp_cons_ne (by decide) rr] at hqd; exact hqd
            rw [enc2_qt]
            show pyReplace (pyReplace (pyReplace (sentTMP2 ++ enc2 rr) sentTMP2 patQT)
              sentTMP1 patQS) sentTMP3 patQP = _
            rw [pyReplace_T2_match, passQTblkT1, passQTblkT3]
            rw [show pyReplace (pyReplace (pyReplace (enc2 rr) sentTMP2 patQT)
              sentTMP1 patQS) sentTMP3 patQP = rr from ih rr hlen2 hqrr htmp2]
            rfl
          · subst hd
            have hqrr : quotesProtected rr = true := by
              rw [qp_cons_ne (by decide) rr] at hqd; exact hqd
            rw [enc2_qp]
            show pyReplace (pyReplace (pyReplace (sentTMP3 ++ enc2 rr) sentTMP2 patQT)
              sentTMP1 patQS) sentTMP3 patQP = _
            rw [passT3T2, passT3T1, pyReplace_T3_match]
            rw [show pyReplace (pyReplace (pyReplace (enc2 rr) sentTMP2 patQT)
              sentTMP1 patQS) sentTMP3 patQP = rr from ih rr hlen2 hqrr htmp2]
            rfl
      · have hq : quotesProtected cs = true := by rw [qp_cons_ne hc cs] at hqp; exact hqp
        have hlen2 : cs.length ≤ n := by simp only [List.length_cons] at hlen; omega
        have htl : noTMP cs := noTMP_tail htmp
        rw [enc2_cons_ne hc]
        show pyReplace (pyReplace (pyReplace (c :: enc2 cs) sentTMP2 patQT)
          sentTMP1 patQS) sentTMP3 patQP = _
        by_cases hT : c = 'T'
        · subst hT
          cases hb2 : sentTMP2.isPrefixOf ('T' :: enc2 cs) with
          | true =>
            exfalso
            obtain ⟨t, ht⟩ := List.isPrefixOf_iff_prefix.mp hb2
            rw [show sentTMP2 ++ t = 'T' :: 'M' :: 'P' :: '2' :: t from rfl] at ht
            have he : enc2 cs = 'M' :: ('P' :: '2' :: t) := ((List.cons.injEq .. ▸ ht).2).symm
            obtain ⟨c1, hc1, hw1⟩ := enc2_head he (by decide)
            obtain ⟨c2, hc2, hw2⟩ := enc2_head hw1.symm (by decide)
            obtain ⟨c3, hc3, _⟩ := enc2_head hw2.symm (by decide)
            exact htmp.2.1 (List.IsPrefix.isInfix ⟨c3, by rw [hc1, hc2, hc3]; rfl⟩)
          | false =>
            rw [pyReplace_cons_pass patQT hb2]
            cases hb1 : sentTMP1.isPrefixOf ('T' :: pyReplace (enc2 cs) sentTMP2 patQT) with
            | true =>
              exfalso
              obtain ⟨t, ht⟩ := List.isPrefixOf_iff_prefix.mp hb1
              rw [show sentTMP1 ++ t = 'T' :: 'M' :: 'P' :: '1' :: t from rfl] at ht
              have he : pyReplace (enc2 cs) sentTMP2 patQT = 'M' :: ('P' :: '1' :: t) :=
                ((List.cons.injEq .. ▸ ht).2).symm
              obtain ⟨x1, hx1, hv1⟩ := pyReplace_head_transfer (by decide) he
              obtain ⟨x2, hx2, hv2⟩ := pyReplace_head_transfer (by decide) hv1.symm
              obtain ⟨x3, hx3, _⟩ := pyReplace_head_transfer (by decide) hv2.symm
              have he2 : enc2 cs = 'M' :: ('P' :: '1' :: x3) := by rw [hx1, hx2, hx3]
              obtain ⟨c1, hc1, hw1⟩ := enc2_head he2 (by decide)
              obtain ⟨c2, hc2, hw2⟩ := enc2_head hw1.symm (by decide)
              obtain ⟨c3, hc3, _⟩ := enc2_head hw2.symm (by decide)
              exact htmp.1 (List.IsPrefix.isInfix ⟨c3, by rw [hc1, hc2, hc3]; rfl⟩)
            | false =>
              rw [pyReplace_cons_pass patQS hb1]
              cases hb3 : sentTMP3.isPrefixOf
                  ('T' :: pyReplace (pyReplace (enc2 cs) sentTMP2 patQT) sentTMP1 patQS) with
              | true =>
                exfalso
                obtain ⟨t, ht⟩ := List.isPrefixOf_iff_prefix.mp hb3
                rw [show sentTMP3 ++ t = 'T' :: 'M' :: 'P' :: '3' :: t from rfl] at ht
                have he : pyReplace (pyReplace (enc2 cs) sentTMP2 patQT) sentTMP1 patQS =
                    'M' :: ('P' :: '3' :: t) := ((List.cons.injEq .. ▸ ht).2).symm
                obtain ⟨x1, hx1, hv1⟩ := pyReplace_head_transfer (by decide) he
                obtain ⟨x2, hx2, hv2⟩ := pyReplace_head_transfer (by decide) hv1.symm
                obtain ⟨x3, hx3, _⟩ := pyReplace_head_transfer (by decide) hv2.symm
                have he2 : pyReplace (enc2 cs) sentTMP2 patQT = 'M' :: ('P' :: '3' :: x3) := by
                  rw [hx1, hx2, hx3]
                obtain ⟨y1, hy1, hu1⟩ := pyReplace_head_transfer (by decide) he2
                obtain ⟨y2, hy2, hu2⟩ := pyReplace_head_transfer (by decide) hu1.symm
                obtain ⟨y3, hy3, _⟩ := pyReplace_head_transfer (by decide) hu2.symm
                have he3 : enc2 cs = 'M' :: ('P' :: '3' :: y3) := by rw [hy1, hy2, hy3]
                obtain ⟨c1, hc1, hw1⟩ := enc2_head he3 (by decide)
                obtain ⟨c2, hc2, hw2⟩ := enc2_head hw1.symm (by decide)
                obtain ⟨c3, hc3, _⟩ := enc2_head hw2.symm (by decide)
                exact htmp.2.2 (List.IsPrefix.isInfix ⟨c3, by rw [hc1, hc2, hc3]; rfl⟩)
              | false =>
                rw [pyReplace_cons_pass patQP hb3]
                rw [show pyReplace (pyReplace (pyReplace (enc2 cs) sentTMP2 patQT)
                  sentTMP1 patQS) sentTMP3 patQP = cs from ih cs hlen2 hq htl]
        · have hb2 : sentTMP2.isPrefixOf (c :: enc2 cs) = false :=
            isPrefixOf_cons_ne _ _ (fun he => hT he.symm)
          rw [pyReplace_cons_pass patQT hb2]
          have hb1 : sentTMP1.isPrefixOf (c :: pyReplace (enc2 cs) sentTMP2 patQT) = false :=
            isPrefixOf_cons_ne _ _ (fun he => hT he.symm)
          rw [pyReplace_cons_pass patQS hb1]
          have hb3 : sentTMP3.isPrefixOf
              (c :: pyReplace (pyReplace (enc2 cs) sentTMP2 patQT) sentTMP1 patQS) = false :=
            isPrefixOf_cons_ne _ _ (fun he => hT he.symm)
          rw [pyReplace_cons_pass patQP hb3]
          rw [show pyReplace (pyReplace (pyReplace (enc2 cs) sentTMP2 patQT)
            sentTMP1 patQS) sentTMP3 patQP = cs from ih cs hlen2 hq htl]

/-- On a quote-protected, sentinel-free string the whole Tier 2 transformation
is the identity. -/
theorem tier2_identity (s : List Char) (h1 : quotesProtected s = true) (h2 : noTMP s) :
    tier2string s = s := by
  show restoreStep (swapStep (protectStep s)) = s
  rw [protect_eq_enc2 s.length s le_rfl h1,
    swapStep_id (enc2_no_quote s.length s le_rfl h1)]
  exact restore_enc2 s.length s le_rfl h1 h2

/-- C3 counterexample: on a well-formed double-quoted input whose only quirk is
the literal text TMP1 inside a value — an input the claim quantifies over,
since it has no single quotes at all — fix_json_structure returns an object
whose value is the two characters of a contracted s, not the original TMP1
text, so the recovered content differs from the denoted content. -/
theorem tier2_sentinel_collision_cex :
    json_loads sentinelCollisionInput =
      some (Json.obj [(chars "k", Json.str (chars "TMP1"))]) ∧
    fix_json_structure sentinelCollisionInput =
      Except.ok (Json.obj [(chars "k", Json.str (chars "'s"))]) ∧
    fix_json_structure sentinelCollisionInput ≠
      Except.ok (Json.obj [(chars "k", Json.str (chars "TMP1"))]) := by
  refine ⟨rfl, rfl, ?_⟩
  intro hcontra
  have h2 : chars "TMP1" = chars "'s" := by
    have e1 : (match fix_json_structure sentinelCollisionInput with
               | Except.ok (Json.obj ((_, Json.str v) :: _)) => v
               | _ => []) = chars "'s" := rfl
    rw [hcontra] at e1
    exact e1
  exact absurd h2 (by decide)

/-- C3 amended: for every well-formed double-quoted metadata string whose
single quotes all start one of the protected patterns and which contains none
of the sentinel substrings TMP1, TMP2, TMP3, the Tier 2 transformation leaves
the string unchanged, so when Tier 1 fails to parse, fix_json_structure
returns exactly the content denoted by the original JSON, contraction
substrings byte-identical. -/
theorem tier2_recovers_protected (s : List Char) (v : Json)
    (h1 : quotesProtected s = true) (h2 : noTMP s)
    (h3 : json_loads s = some v) (h4 : json_loads (tier1string s) = none) :
    tier2string s = s ∧ fix_json_structure s = Except.ok v := by
  have hid := tier2_identity s h1 h2
  refine ⟨hid, ?_⟩
  simp [fix_json_structure, h4, hid, h3]

/-- C3 witness: a double-quoted object with a protected contraction. -/
theorem tier2_recovers_protected_witness :
    tier2string contractionInput = contractionInput ∧
    fix_json_structure contractionInput =
      Except.ok (Json.obj [(chars "a", Json.str (chars "it's fine"))]) :=
  tier2_recovers_protected contractionInput
    (Json.obj [(chars "a", Json.str (chars "it's fine"))])
    (by decide) ⟨by decide, by decide, by decide⟩ rfl rfl
